import Mathlib

/-!
Verification development for the `rss-piotrkow.pl` scraper (`scraper.py`).

The Python program is shallowly embedded: every pure computation of the
scraper is translated into an executable Lean definition; effectful
parts (HTTP fetching, the system clock) become explicit function
parameters, so that the pipeline itself is a pure function of the fetched
pages and the clock readings.  External library calls from the Python
standard library (`urllib.parse.urljoin`, `html.unescape`,
`datetime.fromisoformat`) are modelled by definitions that follow their
documented behaviour on the inputs this program feeds them; each such
model carries a doc comment stating the modelled subset.

Python strings are modelled as `List Char` (Python string indexing,
`len`, and slicing are all in terms of code points, exactly as
`List Char`), wrapped into `String` at the interfaces.
-/

namespace Scraper

/-! ## Character classes

`isPyWS` models Python's `\s` / `str.split()` / `str.strip()` whitespace
on the ASCII range (the scraper's inputs contain only ASCII whitespace;
exotic Unicode space characters are not modelled). -/

def isPyWS (c : Char) : Bool :=
  c = ' ' || c = '\t' || c = '\n' || c = '\r' || c = '\x0b' || c = '\x0c'

/-- Python's `\d` restricted to ASCII digits (the only digits that occur
in the scraped pages). -/
def isAsciiDigit (c : Char) : Bool :=
  '0' ≤ c && c ≤ '9'

/-- The character class `[A-Za-ząćęłńóśźż]` of the month-name regex in
`parse_pl_date` (line 189 of `scraper.py`): ASCII letters plus the nine
lowercase Polish letters, exactly as written in the source. -/
def isMonthLetter (c : Char) : Bool :=
  ('A' ≤ c && c ≤ 'Z') || ('a' ≤ c && c ≤ 'z') ||
  c = 'ą' || c = 'ć' || c = 'ę' || c = 'ł' || c = 'ń' || c = 'ó' || c = 'ś' || c = 'ź' || c = 'ż'

/-- ASCII lowercasing, modelling Python `str.lower()` on the characters
this program actually lowercases: URL characters (all non-ASCII letters
are deleted by the guid's `[^a-f0-9]` filter immediately afterwards, so
ASCII lowering is exact there) and regex captures from
`[A-Za-ząćęłńóśźż]+` (whose non-ASCII members are already lowercase). -/
def asciiLower (c : Char) : Char :=
  if 'A' ≤ c && c ≤ 'Z' then Char.ofNat (c.toNat + 32) else c

def digitVal (c : Char) : Nat := c.toNat - '0'.toNat

/-! ## Generic list-of-char helpers -/

/-- Python `needle in haystack` (substring containment). -/
def containsL (hay needle : List Char) : Bool :=
  (List.range (hay.length + 1)).any (fun i => needle.isPrefixOf (hay.drop i))

def containsS (hay needle : String) : Bool :=
  containsL hay.data needle.data

/-- Python `s.startswith(pre)`. -/
def pyStartsWith (s pre : String) : Bool :=
  pre.data.isPrefixOf s.data

/-- Python `haystack.rfind(needle)`: the greatest index at which `needle`
occurs, `none` when it does not occur (`-1` in Python). -/
def lastOccur (needle hay : List Char) : Option Nat :=
  ((List.range (hay.length + 1)).filter (fun i => needle.isPrefixOf (hay.drop i))).getLast?

/-- Python `str.strip()` (both-ends whitespace trim, ASCII subset). -/
def pyStripL (l : List Char) : List Char :=
  ((l.dropWhile isPyWS).reverse.dropWhile isPyWS).reverse

def pyStrip (s : String) : String := ⟨pyStripL s.data⟩

/-- Python `str.rstrip()`. -/
def pyRStripL (l : List Char) : List Char :=
  (l.reverse.dropWhile isPyWS).reverse

/-! ## Normalisation `" ".join(s.split())` (line 210)

Splitting on whitespace runs and re-joining with single spaces is the
same as: canonicalise every whitespace character to `' '`, collapse runs
of `' '` to one, and trim both ends. -/

def collapseSpaces : List Char → List Char
  | [] => []
  | [c] => [c]
  | c₁ :: c₂ :: t =>
    if c₁ = ' ' && c₂ = ' ' then collapseSpaces (c₂ :: t)
    else c₁ :: collapseSpaces (c₂ :: t)

def normL (l : List Char) : List Char :=
  ((((l.map (fun c => if isPyWS c then ' ' else c)).dropWhile (· = ' ')).reverse.dropWhile
      (· = ' ')).reverse) |> collapseSpaces

/-! ## `first_sentence` (lines 209–222)

```python
def first_sentence(s: str, max_len: int = 400) -> str:
    s = " ".join(s.split())
    if len(s) <= max_len:
        end = max(s.rfind(". "), s.rfind("… "), s.rfind("! "), s.rfind("? "))
        if end != -1 and end + 1 >= max_len * 0.6:
            return s[:end+1]
        return s
    cut = s[:max_len]
    end = cut.rfind(". ")
    if end >= max_len * 0.5:
        return cut[:end+1]
    return cut.rstrip() + "…"
```

The float comparisons `end + 1 >= max_len * 0.6` and
`end >= max_len * 0.5` are embedded as the exact rational comparisons
`10*(end+1) ≥ 6*max_len` and `2*end ≥ max_len`.  At the configured
`MAX_LEAD = 400` (the only value the scraper ever passes) this is exactly
the binary64 computation: `400 * 0.6` rounds to exactly `240.0` and
`400 * 0.5` is exactly `200.0`, and the comparisons against integers are
then exact. -/

def dotSpace : List Char := ['.', ' ']

/-- `max(s.rfind(". "), s.rfind("… "), s.rfind("! "), s.rfind("? "))`,
with `none` playing the role of `-1`. -/
def maxOpt : Option Nat → Option Nat → Option Nat
  | none, b => b
  | a, none => a
  | some x, some y => some (max x y)

def sentEndIdx (t : List Char) : Option Nat :=
  maxOpt (maxOpt (lastOccur dotSpace t) (lastOccur ['…', ' '] t))
         (maxOpt (lastOccur ['!', ' '] t) (lastOccur ['?', ' '] t))

def fsL (t : List Char) (maxLen : Nat) : List Char :=
  if t.length ≤ maxLen then
    match sentEndIdx t with
    | some e => if 10 * (e + 1) ≥ 6 * maxLen then t.take (e + 1) else t
    | none => t
  else
    let cut := t.take maxLen
    match lastOccur dotSpace cut with
    | some e => if 2 * e ≥ maxLen then cut.take (e + 1) else pyRStripL cut ++ ['…']
    | none => pyRStripL cut ++ ['…']

def first_sentence (s : String) (maxLen : Nat) : String :=
  ⟨fsL (normL s.data) maxLen⟩

/-! ## Configuration constants (lines 31–37) -/

def MAX_PAGES_PER_LIST : Nat := 5
def MAX_ITEMS : Nat := 300
def MAX_LEAD : Nat := 400
def BASE : String := "https://www.piotrkow.pl"

def LISTING_URLS : List String :=
  [ "https://www.piotrkow.pl/nasze-miasto-t70/aktualnosci-a75",
    "https://www.piotrkow.pl/gospodarka-t71/aktualnosci-a107",
    "https://www.piotrkow.pl/kultura-i-edukacja-t72/aktualnosci-a108",
    "https://www.piotrkow.pl/sport-i-turystyka-t73/aktualnosci-a109" ]

/-! ## The guid derivation (lines 329–330)

```python
re.sub(r"[^a-f0-9]", "", re.sub(r"^https?://", "", it["url"].lower()))[:40]
```
-/

def isGuidHex (c : Char) : Bool :=
  ('a' ≤ c && c ≤ 'f') || ('0' ≤ c && c ≤ '9')

/-- `re.sub(r"^https?://", "", u)`: strip one leading `http://` or
`https://`. -/
def stripSchemeL (l : List Char) : List Char :=
  if ("https://".data).isPrefixOf l then l.drop 8
  else if ("http://".data).isPrefixOf l then l.drop 7
  else l

def guidOf (url : String) : String :=
  ⟨((stripSchemeL (url.data.map asciiLower)).filter isGuidHex).take 40⟩

/-! ## Timestamps

Python `datetime` values (always timezone-aware UTC in this program) are
embedded as a record of calendar fields.  Microseconds are not modelled:
no parsed date carries them, and the only source of sub-second
timestamps is the `datetime.now` fallback, which enters the model as an
explicit clock parameter.  Comparison of `datetime` values is
chronological, i.e. lexicographic on the fields. -/

structure DT where
  year : Nat
  month : Nat
  day : Nat
  hour : Nat
  minute : Nat
  second : Nat
deriving DecidableEq, Repr

/-- Chronological (lexicographic) order on `DT`, matching Python
`datetime` comparison. -/
def dtLe (a b : DT) : Bool :=
  decide (a.year < b.year) ||
  (decide (a.year = b.year) &&
    (decide (a.month < b.month) ||
      (decide (a.month = b.month) &&
        (decide (a.day < b.day) ||
          (decide (a.day = b.day) &&
            (decide (a.hour < b.hour) ||
              (decide (a.hour = b.hour) &&
                (decide (a.minute < b.minute) ||
                  (decide (a.minute = b.minute) && decide (a.second ≤ b.second))))))))))

def isLeap (y : Nat) : Bool :=
  y % 4 = 0 && (y % 100 ≠ 0 || y % 400 = 0)

def daysInMonth (y m : Nat) : Nat :=
  if m = 2 then (if isLeap y then 29 else 28)
  else if m = 4 || m = 6 || m = 9 || m = 11 then 30
  else 31

/-- The `datetime(year, mon, day, hh, mm, tzinfo=timezone.utc)` call of
line 199: Python's constructor validates the field ranges and raises
`ValueError` otherwise (the source catches this and falls through), so
the model returns `none` exactly on out-of-range fields. -/
def mkDatetime (y mo d hh mi : Nat) : Option DT :=
  if 1 ≤ y && y ≤ 9999 && 1 ≤ mo && mo ≤ 12 && 1 ≤ d && d ≤ daysInMonth y mo
      && hh ≤ 23 && mi ≤ 59 then
    some ⟨y, mo, d, hh, mi, 0⟩
  else none

/-! ## The month-name regex (line 189)

`re.search(r"(\d{1,2})\s+([A-Za-ząćęłńóśźż]+)\s+(\d{4})(?:\s+(\d{1,2}):(\d{2}))?", text)`

is embedded as an explicit matcher with Python's leftmost-match,
greedy-with-backtracking semantics.  `\s+` runs are followed by tokens
from disjoint character classes, so maximal munch is complete for them;
the `\d{1,2}` atoms need (and get) genuine backtracking from two digits
to one. -/

structure PlMatch where
  day : Nat
  monName : List Char
  year : Nat
  time : Option (Nat × Nat)
deriving Repr, DecidableEq

/-- The optional group `(?:\s+(\d{1,2}):(\d{2}))?`, attempted on the text
following the year.  Returns `some (hh, mm)` when the whole group
matches; the group requires at least one whitespace character first, so
a `", 14:32"` continuation (comma before the time) never matches. -/
def matchTimeOpt (l : List Char) : Option (Nat × Nat) :=
  let l₁ := l.dropWhile isPyWS
  if l₁.length = l.length then none
  else
    match l₁ with
    | c₁ :: c₂ :: ':' :: m₁ :: m₂ :: _ =>
      if isAsciiDigit c₁ && isAsciiDigit c₂ && isAsciiDigit m₁ && isAsciiDigit m₂ then
        some (10 * digitVal c₁ + digitVal c₂, 10 * digitVal m₁ + digitVal m₂)
      else
        match l₁ with
        | c₁ :: ':' :: m₁ :: m₂ :: _ =>
          if isAsciiDigit c₁ && isAsciiDigit m₁ && isAsciiDigit m₂ then
            some (digitVal c₁, 10 * digitVal m₁ + digitVal m₂)
          else none
        | _ => none
    | c₁ :: ':' :: m₁ :: m₂ :: _ =>
      if isAsciiDigit c₁ && isAsciiDigit m₁ && isAsciiDigit m₂ then
        some (digitVal c₁, 10 * digitVal m₁ + digitVal m₂)
      else none
    | _ => none

/-- Continuation of the match after the day digits: `\s+`, month-name
letters, `\s+`, the four year digits, then the optional time group. -/
def matchAfterDay (day : Nat) (l : List Char) : Option PlMatch :=
  let l₁ := l.dropWhile isPyWS
  if l₁.length = l.length then none
  else
    let name := l₁.takeWhile isMonthLetter
    if name = [] then none
    else
      let l₂ := l₁.dropWhile isMonthLetter
      let l₃ := l₂.dropWhile isPyWS
      if l₃.length = l₂.length then none
      else
        match l₃ with
        | y₁ :: y₂ :: y₃ :: y₄ :: rest =>
          if isAsciiDigit y₁ && isAsciiDigit y₂ && isAsciiDigit y₃ && isAsciiDigit y₄ then
            some ⟨day, name,
                  1000 * digitVal y₁ + 100 * digitVal y₂ + 10 * digitVal y₃ + digitVal y₄,
                  matchTimeOpt rest⟩
          else none
        | _ => none

/-- Attempt the whole pattern at one fixed starting position (greedy
two-digit day first, backtracking to one digit). -/
def matchFrom : List Char → Option PlMatch
  | [] => none
  | c₁ :: rest =>
    if isAsciiDigit c₁ then
      match rest with
      | c₂ :: rest₂ =>
        if isAsciiDigit c₂ then
          (matchAfterDay (10 * digitVal c₁ + digitVal c₂) rest₂) <|>
            (matchAfterDay (digitVal c₁) rest)
        else matchAfterDay (digitVal c₁) rest
      | [] => none
    else none

/-- `re.search`: the leftmost position at which the pattern matches. -/
def reSearchPl : List Char → Option PlMatch
  | [] => none
  | c :: t => matchFrom (c :: t) <|> reSearchPl t

/-- The `PL_MONTHS` table (lines 53–57). -/
def PL_MONTHS : List (String × Nat) :=
  [ ("stycznia", 1), ("lutego", 2), ("marca", 3), ("kwietnia", 4), ("maja", 5),
    ("czerwca", 6), ("lipca", 7), ("sierpnia", 8), ("września", 9), ("wrzesnia", 9),
    ("października", 10), ("pazdziernika", 10), ("listopada", 11), ("grudnia", 12) ]

def monthLookup (name : List Char) : Option Nat :=
  (PL_MONTHS.find? (fun p => p.1.data == name)).map (·.2)

/-! ## Text clean-up before the regex (lines 183–186) -/

/-- Modelled from the external stdlib call `html.unescape` (line 183):
the identity on entity-free text.  `html.unescape` only rewrites
substrings starting with `&`, and every date string considered in this
development is entity-free, where the identity is exact. -/
def htmlUnescapeL (l : List Char) : List Char := l

/-- `re.sub(r"(?i)Opublikowano:\s*", "", text)` (line 185): delete every
case-insensitive occurrence of `Opublikowano:` together with the
whitespace run following it (left-to-right, non-overlapping, exactly as
`re.sub`).  The first argument is length fuel (initialised to the list
length, which the scan can never exceed). -/
def removeOpubAux : Nat → List Char → List Char
  | 0, l => l
  | _, [] => []
  | fuel + 1, c :: t =>
    if ("opublikowano:".data).isPrefixOf ((c :: t).map asciiLower) then
      removeOpubAux fuel (((c :: t).drop 13).dropWhile isPyWS)
    else c :: removeOpubAux fuel t

def removeOpub (l : List Char) : List Char := removeOpubAux l.length l

/-- `re.sub(r"(?i)Aktualizacja:\s*.*$", "", text)` (line 186), modelled
for single-line text (none of the scraped date strings contain a
newline): truncate at the first case-insensitive occurrence of
`Aktualizacja:`. -/
def removeAktual : List Char → List Char
  | [] => []
  | c :: t =>
    if ("aktualizacja:".data).isPrefixOf ((c :: t).map asciiLower) then []
    else c :: removeAktual t

/-- `text.replace("Z", "+00:00")` (line 205). -/
def replaceZ : List Char → List Char
  | [] => []
  | c :: t =>
    if c = 'Z' then '+' :: '0' :: '0' :: ':' :: '0' :: '0' :: replaceZ t
    else c :: replaceZ t

/-! ## ISO fallback (lines 204–207)

`datetime.fromisoformat(...)` followed by `.astimezone(timezone.utc)` is
modelled for the common `YYYY-MM-DD[<sep>HH:MM[:SS[.ffffff]]][±HH:MM]`
shapes produced by article metadata (Python 3.11+ accepts any single
separator character between date and time).  A naive result (no offset)
is modelled assuming the host clock's timezone is UTC, as on the CI host
that runs this scraper.  Sub-second fractions are parsed and discarded
(the model carries no microseconds).  Offset conversion uses exact
proleptic-Gregorian day arithmetic. -/

def daysFromCivil (y m d : Int) : Int :=
  let y' := if m ≤ 2 then y - 1 else y
  let era := Int.fdiv y' 400
  let yoe := y' - era * 400
  let mp := Int.fmod (m + 9) 12
  let doy := Int.fdiv (153 * mp + 2) 5 + d - 1
  let doe := yoe * 365 + Int.fdiv yoe 4 - Int.fdiv yoe 100 + doy
  era * 146097 + doe - 719468

def civilFromDays (z : Int) : Int × Int × Int :=
  let z := z + 719468
  let era := Int.fdiv z 146097
  let doe := z - era * 146097
  let yoe := Int.fdiv (doe - Int.fdiv doe 1460 + Int.fdiv doe 36524 - Int.fdiv doe 146096) 365
  let y := yoe + era * 400
  let doy := doe - (365 * yoe + Int.fdiv yoe 4 - Int.fdiv yoe 100)
  let mp := Int.fdiv (5 * doy + 2) 153
  let d := doy - Int.fdiv (153 * mp + 2) 5 + 1
  let m := mp + (if mp < 10 then 3 else -9)
  (if m ≤ 2 then y + 1 else y, m, d)

/-- Shift a timestamp by a number of minutes (used to convert an
offset-carrying ISO timestamp to UTC; seconds are unaffected because
ISO offsets are whole minutes). -/
def dtShiftMinutes (dt : DT) (delta : Int) : DT :=
  let abs := daysFromCivil dt.year dt.month dt.day * 1440 + dt.hour * 60 + dt.minute + delta
  let days := Int.fdiv abs 1440
  let hm := Int.fmod abs 1440
  let c := civilFromDays days
  ⟨c.1.toNat, c.2.1.toNat, c.2.2.toNat, (Int.fdiv hm 60).toNat, (Int.fmod hm 60).toNat, dt.second⟩

def readNatDigits (l : List Char) : Nat :=
  l.foldl (fun acc c => 10 * acc + digitVal c) 0

/-- Parse `HH:MM[:SS[.ffffff]]` and an optional `±HH:MM` offset. -/
def parseIsoTime (l : List Char) : Option (Nat × Nat × Nat × Option Int) :=
  match l with
  | h₁ :: h₂ :: ':' :: m₁ :: m₂ :: rest =>
    if isAsciiDigit h₁ && isAsciiDigit h₂ && isAsciiDigit m₁ && isAsciiDigit m₂ then
      let hh := 10 * digitVal h₁ + digitVal h₂
      let mi := 10 * digitVal m₁ + digitVal m₂
      let secPart : Option (Nat × List Char) :=
        match rest with
        | ':' :: s₁ :: s₂ :: rest₂ =>
          if isAsciiDigit s₁ && isAsciiDigit s₂ then
            let afterFrac :=
              match rest₂ with
              | '.' :: fr =>
                let digs := fr.takeWhile isAsciiDigit
                if digs ≠ [] && digs.length ≤ 6 then some (fr.drop digs.length) else none
              | ',' :: fr =>
                let digs := fr.takeWhile isAsciiDigit
                if digs ≠ [] && digs.length ≤ 6 then some (fr.drop digs.length) else none
              | other => some other
            afterFrac.map (fun rest₃ => (10 * digitVal s₁ + digitVal s₂, rest₃))
          else none
        | other => some (0, other)
      match secPart with
      | none => none
      | some (ss, rest₃) =>
        if hh ≤ 23 && mi ≤ 59 && ss ≤ 59 then
          match rest₃ with
          | [] => some (hh, mi, ss, none)
          | '+' :: o₁ :: o₂ :: ':' :: o₃ :: o₄ :: [] =>
            if isAsciiDigit o₁ && isAsciiDigit o₂ && isAsciiDigit o₃ && isAsciiDigit o₄ then
              some (hh, mi, ss, some ((10 * digitVal o₁ + digitVal o₂ : Nat) * 60
                    + (10 * digitVal o₃ + digitVal o₄ : Nat) : Int))
            else none
          | '-' :: o₁ :: o₂ :: ':' :: o₃ :: o₄ :: [] =>
            if isAsciiDigit o₁ && isAsciiDigit o₂ && isAsciiDigit o₃ && isAsciiDigit o₄ then
              some (hh, mi, ss, some (-((10 * digitVal o₁ + digitVal o₂ : Nat) * 60
                    + (10 * digitVal o₃ + digitVal o₄ : Nat) : Int)))
            else none
          | _ => none
        else none
    else none
  | _ => none

def parseIso (l : List Char) : Option (DT × Option Int) :=
  match l with
  | y₁ :: y₂ :: y₃ :: y₄ :: '-' :: m₁ :: m₂ :: '-' :: d₁ :: d₂ :: rest =>
    if isAsciiDigit y₁ && isAsciiDigit y₂ && isAsciiDigit y₃ && isAsciiDigit y₄
        && isAsciiDigit m₁ && isAsciiDigit m₂ && isAsciiDigit d₁ && isAsciiDigit d₂ then
      let y := readNatDigits [y₁, y₂, y₃, y₄]
      let mo := readNatDigits [m₁, m₂]
      let d := readNatDigits [d₁, d₂]
      if 1 ≤ y && 1 ≤ mo && mo ≤ 12 && 1 ≤ d && d ≤ daysInMonth y mo then
        match rest with
        | [] => some (⟨y, mo, d, 0, 0, 0⟩, none)
        | _sep :: rest₂ =>
          (parseIsoTime rest₂).map (fun t => (⟨y, mo, d, t.1, t.2.1, t.2.2.1⟩, t.2.2.2))
      else none
    else none
  | _ => none

/-- The whole ISO branch: `datetime.fromisoformat(text.replace("Z",
"+00:00")).astimezone(timezone.utc)`, `none` when `fromisoformat`
raises. -/
def isoToUtc (l : List Char) : Option DT :=
  (parseIso (replaceZ l)).map (fun p =>
    match p.2 with
    | none => p.1
    | some off => dtShiftMinutes p.1 (-off))

/-! ## `parse_pl_date` (lines 177–207) -/

def parse_pl_date (s : String) : Option DT :=
  let text := removeAktual (removeOpub (pyStripL (htmlUnescapeL s.data)))
  match reSearchPl text with
  | some m =>
    match monthLookup (m.monName.map asciiLower) with
    | some mon =>
      let hhmm := m.time.getD (0, 0)
      match mkDatetime m.year mon m.day hhmm.1 hhmm.2 with
      | some dt => some dt
      | none => isoToUtc text
    | none => isoToUtc text
  | none => isoToUtc text

/-! ## `urllib.parse.urljoin`

Modelled from the external stdlib call, restricted to the shapes this
program feeds it: an absolute `http(s)` base URL, and an href that is
either absolute `http(s)`, protocol-relative (`//…`), host-relative
(`/…`), or path-relative without `./`/`../` segments; query strings pass
through as opaque characters.  Fragment-only hrefs never reach `urljoin`
in the scraper (they are rejected by `is_article_href` first) and are
not modelled. -/

def findFirstOccur (needle hay : List Char) : Option Nat :=
  ((List.range (hay.length + 1)).filter (fun i => needle.isPrefixOf (hay.drop i))).head?

def urljoin (base rel : String) : String :=
  let b := base.data
  let r := rel.data
  if r = [] then base
  else if ("https://".data).isPrefixOf r || ("http://".data).isPrefixOf r then rel
  else if ("//".data).isPrefixOf r then ⟨b.takeWhile (· ≠ ':') ++ ':' :: r⟩
  else
    match findFirstOccur "://".data b with
    | none => rel
    | some i =>
      let originLen := i + 3 + ((b.drop (i + 3)).takeWhile (· ≠ '/')).length
      if r.head? = some '/' then ⟨b.take originLen ++ r⟩
      else
        match lastOccur ['/'] (b.drop originLen) with
        | some j => ⟨b.take (originLen + j + 1) ++ r⟩
        | none => ⟨b.take originLen ++ '/' :: r⟩

/-! ## `is_article_href` (lines 129–146)

Each of the five patterns `r"/…/.*"` contains no anchors and ends in
`.*` (which may match the empty string), so `re.search` succeeds exactly
when the fixed part occurs as a substring. -/

def is_article_href (href : String) : Bool :=
  if href = "" then false
  else if pyStartsWith href "#" then false
  else if containsS href "aktualnosci-a" then false
  else
    containsS href "/nasze-miasto-t70/" || containsS href "/gospodarka-t71/" ||
    containsS href "/kultura-i-edukacja-t72/" || containsS href "/sport-i-turystyka-t73/" ||
    containsS href "/artykul/"

/-! ## Listing pages

A fetched listing page enters the model through the anchors its markup
yields to the scraper's queries: `selAnchors` holds, per entry of the
`selectors` list (lines 153–160) and in that order, the `href` values of
the anchors matching that selector; `allAnchors` holds the `href` values
of every anchor with an `href` attribute (`soup.find_all("a",
href=True)` and `soup.select('a[href]')` — the same set of elements,
line 169 and line 107). -/

structure ListingPage where
  selAnchors : List (List String)
  allAnchors : List String

/-- First-insertion-order deduplication.  Python accumulates candidate
links in a `set`, whose iteration order is unspecified; the model keeps
first-insertion order, and only membership in the result is relied upon
(the aggregator re-deduplicates and sorts all URLs anyway). -/
def dedupAux (seen : List String) : List String → List String
  | [] => []
  | h :: t => if h ∈ seen then dedupAux seen t else h :: dedupAux (h :: seen) t

def dedupKeepFirst (l : List String) : List String := dedupAux [] l

def articleLinksOf (hrefs : List String) : List String :=
  dedupKeepFirst ((hrefs.filter is_article_href).map (fun h => urljoin BASE h))

/-- `extract_links_from_listing` (lines 148–175): the selector tiers
collect into one set; only when that set is empty does the scan over
every anchor run. -/
def extract_links_from_listing (pg : ListingPage) : List String :=
  let l₁ := articleLinksOf pg.selAnchors.flatten
  if l₁ = [] then articleLinksOf pg.allAnchors else l₁

/-! ## `discover_pagination_urls` (lines 101–127) -/

/-- `"?" in href and ("page=" in href or "strona=" in href)` (line 112). -/
def isPagAnchor (h : String) : Bool :=
  containsS h "?" && (containsS h "page=" || containsS h "strona=")

/-- The pagination-anchor loop of lines 109–116: collect resolved
pagination hrefs in document order, skipping those already seen
(including the root URL itself, which seeds `seen`). -/
def pagLinks (seen : List String) : List String → List String
  | [] => []
  | h :: t =>
    if isPagAnchor h then
      let full := urljoin BASE h
      if full ∈ seen then pagLinks seen t else full :: pagLinks (full :: seen) t
    else pagLinks seen t

/-- The synthesized candidates of lines 120–124: for each page number
`2..MAX_PAGES_PER_LIST`, one URL per parameter name, `page` before
`strona`. -/
def synthPages (first_url : String) : List String :=
  (List.range' 2 (MAX_PAGES_PER_LIST - 1)).flatMap (fun p =>
    [ first_url ++ (if containsS first_url "?" then "&" else "?") ++ "page=" ++ toString p,
      first_url ++ (if containsS first_url "?" then "&" else "?") ++ "strona=" ++ toString p ])

def discover_pagination_urls (first_url : String) (anchors : List String) : List String :=
  let urls := first_url :: pagLinks [first_url] anchors
  let urls := if urls.length = 1 then urls ++ synthPages first_url else urls
  urls.take MAX_PAGES_PER_LIST

/-! ## Article pages and `extract_article` (lines 224–303)

A fetched article page enters the model through the values its markup
yields to the scraper's soup queries.  `Option String` fields model a
tag that may be absent; a present-but-empty attribute is `some ""`
(Python distinguishes the two via truthiness, and so does the
extractor below).  `imgs` records the `src` of the page's `<img>`
elements; the scraper never queries them. -/

structure Page where
  /-- `content` of `<meta property="og:title">`, when such a tag with a
  `content` attribute exists. -/
  ogTitle : Option String := none
  /-- `get_text(strip=True)` of the first `h1`/`h2` element, when one
  exists. -/
  h1Text : Option String := none
  /-- `content` of `<meta property="og:image">`. -/
  ogImage : Option String := none
  /-- `content` of `<meta property="article:published_time">`. -/
  metaArticlePublished : Option String := none
  /-- `content` of `<meta property="og:published_time">`. -/
  metaOgPublished : Option String := none
  /-- `content` of `<meta property="article:modified_time">`. -/
  metaArticleModified : Option String := none
  /-- The first `<time>` element: its `datetime` attribute (when
  present) and its stripped text. -/
  timeTag : Option (Option String × String) := none
  /-- `str()` of the first string matching `/opublikowano/i`. -/
  opublikowanoText : Option String := none
  /-- `content` of `<meta property="og:description">`. -/
  ogDescription : Option String := none
  /-- `get_text(" ", strip=True)` of the `<p>` elements inside the
  known content containers (line 280), concatenated over containers in
  document order. -/
  containerParas : List String := []
  /-- `get_text(" ", strip=True)` of every `<p>` on the page. -/
  allParas : List String := []
  /-- `src` of the `<img>` elements present on the page (never consulted
  by the scraper). -/
  imgs : List String := []

/-- Python truthiness of an optional string (`None` and `""` falsy). -/
def isTruthy : Option String → Bool
  | none => false
  | some s => s ≠ ""

structure ArticleRecord where
  url : String
  title : String
  image : Option String
  pubdate : DT
  lead : Option String
deriving DecidableEq, Repr

/-- The published-time fallback chain over the three meta properties
(lines 250–256): take the first whose truthy content parses; a meta
whose content fails to parse is skipped and the next is tried. -/
def pickMetaPub (metas : List (Option String)) : Option DT :=
  match metas with
  | [] => none
  | m :: rest =>
    match (if isTruthy m then parse_pl_date (m.getD "") else none) with
    | some d => some d
    | none => pickMetaPub rest

/-- `extract_article` (lines 224–303) for a successfully fetched page.
A fetch failure returns `None` in Python and is modelled at the call
site (`collect_all_articles`) by an `Option Page` fetcher.  `now` is
the value `datetime.now(timezone.utc)` would produce during this call
(line 268). -/
def extract_article (url : String) (pg : Page) (now : DT) : ArticleRecord :=
  let title₁ : Option String :=
    if isTruthy pg.ogTitle then some (pyStrip (pg.ogTitle.getD "")) else none
  let title₂ : Option String :=
    if isTruthy title₁ then title₁ else
      match pg.h1Text with
      | some h => some h
      | none => title₁
  let title : String := if isTruthy title₂ then title₂.getD "" else url
  let image : Option String :=
    if isTruthy pg.ogImage then some (urljoin url (pyStrip (pg.ogImage.getD ""))) else none
  let pub₁ : Option DT :=
    pickMetaPub [pg.metaArticlePublished, pg.metaOgPublished, pg.metaArticleModified]
  let pub₂ : Option DT :=
    match pub₁ with
    | some d => some d
    | none =>
      match pg.timeTag with
      | some (dtAttr, txt) =>
        if isTruthy dtAttr || txt ≠ "" then
          parse_pl_date (if isTruthy dtAttr then dtAttr.getD "" else txt)
        else none
      | none => none
  let pub₃ : Option DT :=
    match pub₂ with
    | some d => some d
    | none =>
      match pg.opublikowanoText with
      | some cand => parse_pl_date cand
      | none => none
  let pub : DT := pub₃.getD now
  let lead₁ : Option String :=
    if isTruthy pg.ogDescription then some (pyStrip (pg.ogDescription.getD "")) else none
  let paras : List String :=
    if pg.containerParas ≠ [] then pg.containerParas else pg.allParas
  let lead₂ : Option String :=
    if isTruthy lead₁ then lead₁ else
      match paras.find? (fun t => t ≠ "" && t.length > 30) with
      | some t => some t
      | none => lead₁
  let lead : Option String :=
    if isTruthy lead₂ then some (first_sentence (lead₂.getD "") MAX_LEAD) else lead₂
  ⟨url, title, image, pub, lead⟩

/-! ## `build_feed` (lines 305–349)

Only the per-item payload is modelled (channel metadata is static
configuration plus the build timestamp).  Each emitted item is rendered
from one record: CDATA-wrapped title, the article URL as `link`, the
guid derived from the URL, the publish timestamp, the HTML description
(thumbnail `<img>` when an image is present, then the escaped lead, or
the escaped title when the lead is falsy), and the enclosure /
media-extension image URL when an image is present. -/

/-- Python `html.escape` with its default `quote=True`. -/
def escapeHtmlChar (c : Char) : List Char :=
  if c = '&' then "&amp;".data
  else if c = '<' then "&lt;".data
  else if c = '>' then "&gt;".data
  else if c = '"' then "&quot;".data
  else if c = '\x27' then "&#x27;".data
  else [c]

def escapeHtml (s : String) : String :=
  ⟨s.data.flatMap escapeHtmlChar⟩

structure FeedItem where
  title : String
  link : String
  guid : String
  pubdate : DT
  description : String
  enclosure : Option String
deriving Repr

def renderItem (r : ArticleRecord) : FeedItem :=
  let descHtml :=
    (match r.image with
     | some i => if i ≠ "" then "<p><img src=\"" ++ escapeHtml i ++ "\" alt=\"miniatura\"/></p>" else ""
     | none => "") ++
    (match r.lead with
     | some l => if l ≠ "" then "<p>" ++ escapeHtml l ++ "</p>" else "<p>" ++ escapeHtml r.title ++ "</p>"
     | none => "<p>" ++ escapeHtml r.title ++ "</p>")
  { title := "<![CDATA[ " ++ r.title ++ " ]]>"
    link := r.url
    guid := guidOf r.url
    pubdate := r.pubdate
    description := "<![CDATA[ " ++ descHtml ++ " ]]>"
    enclosure := match r.image with
                 | some i => if i ≠ "" then some i else none
                 | none => none }

/-- The item loop of line 324: `for it in items[:MAX_ITEMS]`. -/
def build_feed (items : List ArticleRecord) : List FeedItem :=
  (items.take MAX_ITEMS).map renderItem

/-! ## `collect_all_articles` (lines 351–386)

Network and clock become parameters: `fetchL url` is the parsed
listing markup `get(url)` yields (`none` on exhausted retries),
`fetchA url` the parsed article markup, and `nowAt url` the clock
reading during the extraction of `url`.  Python accumulates article
URLs in a `set` and then iterates `sorted(all_urls)`; the model
deduplicates and sorts (ascending code-point order, Python's string
order), which yields the identical list.  The final
`items.sort(key=..., reverse=True)` is Python's stable sort in
descending key order: `mergeSort` with `le a b := dtLe b.pubdate
a.pubdate`, which keeps the original relative order of equal keys. -/

def discoveredUrls (fetchL : String → Option ListingPage) : List String :=
  LISTING_URLS.flatMap (fun base_url =>
    match fetchL base_url with
    | none => []
    | some rootPg =>
      (discover_pagination_urls base_url rootPg.allAnchors).flatMap (fun pu =>
        match fetchL pu with
        | none => []
        | some pg => extract_links_from_listing pg))

def sortedUrls (fetchL : String → Option ListingPage) : List String :=
  ((discoveredUrls fetchL).dedup).mergeSort (fun a b => !decide (b < a))

def recLe (a b : ArticleRecord) : Bool := dtLe b.pubdate a.pubdate

/-- The records in the order they are appended to `items` (lines
374–382): ascending URL order, fetch failures skipped. -/
def aggregatorInput (fetchL : String → Option ListingPage)
    (fetchA : String → Option Page) (nowAt : String → DT) : List ArticleRecord :=
  (sortedUrls fetchL).filterMap (fun u => (fetchA u).map (fun pg => extract_article u pg (nowAt u)))

def collect_all_articles (fetchL : String → Option ListingPage)
    (fetchA : String → Option Page) (nowAt : String → DT) : List ArticleRecord :=
  (aggregatorInput fetchL fetchA nowAt).mergeSort recLe

/-! ## Concrete fixtures used by counterexamples and witnesses -/

/-- A listing page whose only candidate anchor (matched by the
`a[href^='/']` selector, the sixth entry of `selectors`) points at a PDF
file under a category path. -/
def pdfListing : ListingPage :=
  ⟨[[], [], [], [], [], ["/nasze-miasto-t70/raport.pdf"]], []⟩

/-- An article page with no `og:image` tag but with an `<img>` element
in its body. -/
def imgOnlyPage : Page := { imgs := ["/img/x.jpg"] }

/-- An article page whose `og:image` content is the relative path
`/img/x.jpg`. -/
def ogImgPage : Page := { ogImage := some "/img/x.jpg" }

def now0 : DT := ⟨2025, 1, 1, 0, 0, 0⟩

/-- A 401-character normalized lead with no sentence boundary. -/
def longLead : String := ⟨List.replicate 401 'a'⟩

end Scraper

namespace Scraper

/-! # Helper lemmas -/

theorem length_dropWhile_le (p : α → Bool) (l : List α) :
    (l.dropWhile p).length ≤ l.length := by
  induction l with
  | nil => simp
  | cons a t ih =>
    rw [List.dropWhile_cons]
    split
    · exact Nat.le_succ_of_le ih
    · simp

theorem pyRStripL_length_le (l : List Char) : (pyRStripL l).length ≤ l.length := by
  unfold pyRStripL
  calc ((l.reverse.dropWhile isPyWS).reverse).length
      = (l.reverse.dropWhile isPyWS).length := List.length_reverse _
    _ ≤ l.reverse.length := length_dropWhile_le _ _
    _ = l.length := List.length_reverse _

theorem lastOccur_spec {needle hay : List Char} {i : Nat}
    (h : lastOccur needle hay = some i) :
    needle.isPrefixOf (hay.drop i) = true ∧ i + needle.length ≤ hay.length := by
  have hmem : i ∈ (List.range (hay.length + 1)).filter
      (fun j => needle.isPrefixOf (hay.drop j)) := by
    obtain ⟨hne, he⟩ := List.mem_getLast?_eq_getLast (show i ∈ _ from h)
    exact he ▸ List.getLast_mem hne
  rw [List.mem_filter, List.mem_range] at hmem
  obtain ⟨hlt, hpref⟩ := hmem
  refine ⟨hpref, ?_⟩
  have hp : needle <+: hay.drop i := List.isPrefixOf_iff_prefix.mp hpref
  have := hp.length_le
  rw [List.length_drop] at this
  omega

theorem maxOpt_eq_some {a b : Option Nat} {e : Nat} (h : maxOpt a b = some e) :
    a = some e ∨ b = some e := by
  match a, b with
  | none, b => exact Or.inr (by simpa [maxOpt] using h)
  | some x, none => exact Or.inl (by simpa [maxOpt] using h)
  | some x, some y =>
    simp only [maxOpt, Option.some.injEq] at h
    rcases Nat.le_total x y with hxy | hyx
    · right; rw [Nat.max_eq_right hxy] at h; exact congrArg some h
    · left; rw [Nat.max_eq_left hyx] at h; exact congrArg some h

theorem sentEndIdx_bound {t : List Char} {e : Nat} (h : sentEndIdx t = some e) :
    e + 2 ≤ t.length := by
  unfold sentEndIdx at h
  rcases maxOpt_eq_some h with h' | h' <;> rcases maxOpt_eq_some h' with h'' | h'' <;>
    simpa using (lastOccur_spec h'').2

theorem dtLe_refl (a : DT) : dtLe a a = true := by
  simp [dtLe]

theorem dtLe_trans {a b c : DT} (h₁ : dtLe a b = true) (h₂ : dtLe b c = true) :
    dtLe a c = true := by
  simp only [dtLe, Bool.or_eq_true, Bool.and_eq_true, decide_eq_true_eq] at h₁ h₂ ⊢
  omega

theorem dtLe_total (a b : DT) : (dtLe a b || dtLe b a) = true := by
  simp only [dtLe, Bool.or_eq_true, Bool.and_eq_true, decide_eq_true_eq]
  omega

theorem recLe_trans (a b c : ArticleRecord) (h₁ : recLe a b = true) (h₂ : recLe b c = true) :
    recLe a c = true :=
  dtLe_trans h₂ h₁

theorem recLe_total (a b : ArticleRecord) : (recLe a b || recLe b a) = true :=
  dtLe_total b.pubdate a.pubdate

/-! # Claim theorems -/

/-- C1.  The claim states that `parse_pl_date` maps
`"13 października 2025, 14:32"` to 2025-10-13T14:32:00 UTC.  The code
instead returns 2025-10-13T00:00:00 UTC: the regex's optional time group
`(?:\s+(\d{1,2}):(\d{2}))?` requires whitespace immediately after the
year, so the `", "` before `14:32` prevents the time from being
captured and the hour/minute default to 0 — even though the function's
own docstring gives exactly this comma-separated shape as a parse
target.  (The claim's second half, `publishedAt = now` for unparsable
text, does hold; see the `extract_article` fallback chain.) -/
theorem C1_parse_pl_date_drops_time_after_comma :
    parse_pl_date "13 października 2025, 14:32" = some ⟨2025, 10, 13, 0, 0, 0⟩ ∧
    parse_pl_date "13 października 2025, 14:32" ≠ some ⟨2025, 10, 13, 14, 32, 0⟩ := by
  decide

/-- C9.  The guid derivation (lowercase, strip the scheme, delete every
character outside `[a-f0-9]`, truncate to 40) is not injective: two
distinct article URLs differing only in characters the filter deletes
receive the identical guid. -/
theorem C9_guid_not_injective :
    guidOf "https://www.piotrkow.pl/nasze-miasto-t70/artykul-x" =
      guidOf "https://www.piotrkow.pl/nasze-miasto-t70/artykul-y" ∧
    "https://www.piotrkow.pl/nasze-miasto-t70/artykul-x" ≠
      "https://www.piotrkow.pl/nasze-miasto-t70/artykul-y" := by
  decide

/-- C6.  However many records were discovered and extracted, `build_feed`
serializes at most `MAX_ITEMS` items (`items[:MAX_ITEMS]`, line 324). -/
theorem C6_item_count_capped (items : List ArticleRecord) :
    (build_feed items).length ≤ MAX_ITEMS := by
  simp only [build_feed, List.length_map, List.length_take, MAX_ITEMS]
  omega

/-- C4, counterexample.  The claim states a link pointing at a PDF or
image file is never included in the candidate article set.  The code has
no file-type check at all: a `.pdf` href under a category path passes
`is_article_href` and is returned by the Link Extractor. -/
theorem C4_counterexample :
    extract_links_from_listing pdfListing =
      ["https://www.piotrkow.pl/nasze-miasto-t70/raport.pdf"] := by
  decide

/-- C4, amended.  `is_article_href` performs no file-extension
filtering: every non-empty, non-fragment href that does not contain the
listing marker `aktualnosci-a` and whose path contains a configured
category pattern is accepted — PDF and image paths included. -/
theorem C4_amended_no_filetype_filter (h : String) (h₁ : h ≠ "")
    (h₂ : pyStartsWith h "#" = false) (h₃ : containsS h "aktualnosci-a" = false)
    (h₄ : containsS h "/nasze-miasto-t70/" = true) :
    is_article_href h = true := by
  simp [is_article_href, h₁, h₂, h₃, h₄]

theorem C4_witness : is_article_href "/nasze-miasto-t70/raport.pdf" = true :=
  C4_amended_no_filetype_filter "/nasze-miasto-t70/raport.pdf"
    (by decide) (by decide) (by decide) (by decide)

/-- C5, counterexample.  The claim states the image falls back to the
first `<img>` element when `og:image` yields nothing.  The code (lines
243–247) reads only the `og:image` meta tag: on a page with no such tag
but with an `<img>` element, the extracted image is absent. -/
theorem C5_counterexample :
    (extract_article "https://site.example/a/b" imgOnlyPage now0).image = none ∧
    imgOnlyPage.imgs = ["/img/x.jpg"] :=
  ⟨rfl, rfl⟩

/-- C5, amended.  The article image comes from the `og:image` metadata
tag only (no `<img>`-element fallback exists); when that tag is present
with truthy content, the (possibly relative) URL is resolved against the
article's own URL with `urljoin`. -/
theorem C5_amended_og_image_only (url c : String) (pg : Page) (now : DT)
    (h₁ : pg.ogImage = some c) (h₂ : c ≠ "") :
    (extract_article url pg now).image = some (urljoin url (pyStrip c)) := by
  simp [extract_article, h₁, isTruthy, h₂]

theorem C5_witness :
    (extract_article "https://site.example/a/b" ogImgPage now0).image =
      some "https://site.example/img/x.jpg" := by
  have h := C5_amended_og_image_only "https://site.example/a/b" "/img/x.jpg"
    ogImgPage now0 rfl (by decide)
  rw [h]
  rfl

theorem pagLinks_eq_nil (anchors : List String)
    (h : ∀ a ∈ anchors, isPagAnchor a = false) :
    ∀ seen, pagLinks seen anchors = [] := by
  induction anchors with
  | nil => intro seen; rfl
  | cons a t ih =>
    intro seen
    have ha : isPagAnchor a = false := h a (List.mem_cons_self a t)
    have ht : ∀ b ∈ t, isPagAnchor b = false := fun b hb => h b (List.mem_cons_of_mem a hb)
    simp [pagLinks, ha, ih ht]

/-- C8.  `discover_pagination_urls` returns an ordered list of at most
`MAX_PAGES_PER_LIST` listing URLs whose first entry is always the root
URL; when no anchor in the markup carries a page-number query parameter,
it synthesizes candidates for pages `2..MAX_PAGES_PER_LIST` under each
of the parameter names `page` and `strona` and truncates the whole list
to `MAX_PAGES_PER_LIST`. -/
theorem C8_pagination_discovery (first_url : String) (anchors : List String) :
    (discover_pagination_urls first_url anchors).length ≤ MAX_PAGES_PER_LIST ∧
    (discover_pagination_urls first_url anchors).head? = some first_url ∧
    ((∀ a ∈ anchors, isPagAnchor a = false) →
      discover_pagination_urls first_url anchors =
        (first_url :: synthPages first_url).take MAX_PAGES_PER_LIST) := by
  refine ⟨?_, ?_, ?_⟩
  · simp [discover_pagination_urls, List.length_take]
  · unfold discover_pagination_urls
    dsimp only
    split
    · rfl
    · rfl
  · intro h
    unfold discover_pagination_urls
    rw [pagLinks_eq_nil anchors h [first_url]]
    rfl

theorem C8_witness :
    (discover_pagination_urls "https://www.piotrkow.pl/nasze-miasto-t70/aktualnosci-a75"
        []).length ≤ MAX_PAGES_PER_LIST ∧
    (discover_pagination_urls "https://www.piotrkow.pl/nasze-miasto-t70/aktualnosci-a75"
        []).head? = some "https://www.piotrkow.pl/nasze-miasto-t70/aktualnosci-a75" ∧
    discover_pagination_urls "https://www.piotrkow.pl/nasze-miasto-t70/aktualnosci-a75" [] =
      ("https://www.piotrkow.pl/nasze-miasto-t70/aktualnosci-a75" ::
        synthPages "https://www.piotrkow.pl/nasze-miasto-t70/aktualnosci-a75").take
          MAX_PAGES_PER_LIST := by
  obtain ⟨h₁, h₂, h₃⟩ :=
    C8_pagination_discovery "https://www.piotrkow.pl/nasze-miasto-t70/aktualnosci-a75" []
  exact ⟨h₁, h₂, h₃ (by simp)⟩

/-- C10.  Lead truncation can shorten a lead even when it is not longer
than `max_len`: on the short branch of `first_sentence` (lines 211–216),
whenever the rightmost sentence-ending mark-plus-space (the code's
`max` of the four `rfind`s, embedded as `sentEndIdx`) sits at index `e`
with `e + 1 ≥ 0.6 * max_len`, the function returns only the prefix up
to and including that mark, silently dropping the rest of the text
(the result is strictly shorter than the normalized input). -/
theorem C10_short_input_truncation (s : String) (maxLen : Nat)
    (h : (normL s.data).length ≤ maxLen) (e : Nat)
    (he : sentEndIdx (normL s.data) = some e)
    (hc : 10 * (e + 1) ≥ 6 * maxLen) :
    first_sentence s maxLen = ⟨(normL s.data).take (e + 1)⟩ ∧
    (first_sentence s maxLen).length = e + 1 ∧
    e + 1 < (normL s.data).length := by
  have hb := sentEndIdx_bound he
  have heq : first_sentence s maxLen = ⟨(normL s.data).take (e + 1)⟩ := by
    unfold first_sentence fsL
    rw [if_pos h, he]
    dsimp only
    rw [if_pos hc]
  refine ⟨heq, ?_, by omega⟩
  rw [heq]
  show ((normL s.data).take (e + 1)).length = e + 1
  rw [List.length_take]
  omega

theorem C10_witness :
    first_sentence "Abcdef. gh" 10 = ⟨(normL "Abcdef. gh".data).take 7⟩ ∧
    (first_sentence "Abcdef. gh" 10).length = 7 ∧
    7 < (normL "Abcdef. gh".data).length :=
  C10_short_input_truncation "Abcdef. gh" 10 (by decide) 6 (by decide) (by decide)

set_option maxRecDepth 40000 in
set_option maxHeartbeats 1000000 in
/-- C2, counterexample.  The claim states that for every lead longer
than the configured maximum the truncated result has length ≤ the
maximum.  On the ellipsis branch the code returns
`cut.rstrip() + "…"`, which for a 401-character boundary-free lead has
length `MAX_LEAD + 1 = 401`. -/
theorem C2_counterexample :
    MAX_LEAD < (normL longLead.data).length ∧
    MAX_LEAD < (first_sentence longLead MAX_LEAD).length := by
  decide

/-- C2, amended.  For a lead whose normalized form is longer than
`max_len`: the result's length is at most `max_len + 1` (the appended
ellipsis character may exceed `max_len` by one); if a `". "` sentence
boundary occurs in the first `max_len` characters at an index `e` with
`e ≥ 0.5 * max_len`, the result is the prefix up to and including that
period — within `max_len`, ending in `'.'`, no ellipsis; otherwise the
result ends with the ellipsis character. -/
theorem C2_amended_truncation (s : String) (maxLen : Nat)
    (h : maxLen < (normL s.data).length) :
    (first_sentence s maxLen).length ≤ maxLen + 1 ∧
    (∀ e, lastOccur dotSpace ((normL s.data).take maxLen) = some e → maxLen ≤ 2 * e →
      first_sentence s maxLen = ⟨((normL s.data).take maxLen).take (e + 1)⟩ ∧
      (first_sentence s maxLen).length ≤ maxLen ∧
      (first_sentence s maxLen).data.getLast? = some '.') ∧
    ((∀ e, lastOccur dotSpace ((normL s.data).take maxLen) = some e → 2 * e < maxLen) →
      (first_sentence s maxLen).data.getLast? = some '…') := by
  set t := normL s.data with ht
  have hnot : ¬ (t.length ≤ maxLen) := by omega
  have hcut : (t.take maxLen).length = maxLen := by
    rw [List.length_take]; omega
  have hellipsis_len : (pyRStripL (t.take maxLen) ++ ['…']).length ≤ maxLen + 1 := by
    rw [List.length_append]
    have := pyRStripL_length_le (t.take maxLen)
    rw [hcut] at this
    simpa using this
  rcases hlo : lastOccur dotSpace (t.take maxLen) with _ | e
  · have hfs : first_sentence s maxLen = ⟨pyRStripL (t.take maxLen) ++ ['…']⟩ := by
      unfold first_sentence fsL
      rw [← ht, if_neg hnot]
      dsimp only
      rw [hlo]
    refine ⟨?_, ?_, ?_⟩
    · rw [hfs]; exact hellipsis_len
    · intro e he; cases he
    · intro _; rw [hfs]; exact List.getLast?_concat _
  · obtain ⟨hpref, hlen2⟩ := lastOccur_spec hlo
    have he2 : e + 2 ≤ maxLen := by simpa [dotSpace, hcut] using hlen2
    have hgetelem : (t.take maxLen)[e]? = some '.' := by
      have hp : dotSpace <+: ((t.take maxLen).drop e) := List.isPrefixOf_iff_prefix.mp hpref
      obtain ⟨rest, hrest⟩ := hp
      have hd := List.getElem?_drop (t.take maxLen) e 0
      rw [Nat.add_zero] at hd
      rw [← hd, ← hrest]
      rfl
    have htake : (t.take maxLen).take (e + 1) = (t.take maxLen).take e ++ ['.'] := by
      rw [List.take_succ, hgetelem]
      rfl
    by_cases hge : maxLen ≤ 2 * e
    · have hfs : first_sentence s maxLen = ⟨(t.take maxLen).take (e + 1)⟩ := by
        unfold first_sentence fsL
        rw [← ht, if_neg hnot]
        dsimp only
        rw [hlo]
        dsimp only
        rw [if_pos hge]
      have hfslen : (first_sentence s maxLen).length ≤ maxLen := by
        rw [hfs]
        show ((t.take maxLen).take (e + 1)).length ≤ maxLen
        rw [List.length_take, hcut]
        omega
      refine ⟨by omega, ?_, ?_⟩
      · intro e' he' _
        injection he' with he''
        subst he''
        refine ⟨hfs, hfslen, ?_⟩
        rw [hfs]
        show ((t.take maxLen).take (e + 1)).getLast? = some '.'
        rw [htake]
        exact List.getLast?_concat _
      · intro hall
        have := hall e rfl
        omega
    · have hfs : first_sentence s maxLen = ⟨pyRStripL (t.take maxLen) ++ ['…']⟩ := by
        unfold first_sentence fsL
        rw [← ht, if_neg hnot]
        dsimp only
        rw [hlo]
        dsimp only
        rw [if_neg hge]
      refine ⟨?_, ?_, ?_⟩
      · rw [hfs]; exact hellipsis_len
      · intro e' he' hge'
        injection he' with he''
        subst he''
        exact absurd hge' hge
      · intro _
        rw [hfs]
        exact List.getLast?_concat _

theorem C2_witness :
    (first_sentence "aaaaaa" 3).length ≤ 3 + 1 ∧
    (first_sentence "aaaaaa" 3).data.getLast? = some '…' := by
  obtain ⟨h₁, _, h₃⟩ := C2_amended_truncation "aaaaaa" 3 (by decide)
  refine ⟨h₁, h₃ ?_⟩
  intro e he
  rw [show lastOccur dotSpace ((normL "aaaaaa".data).take 3) = none from by decide] at he
  cases he

/-- C3.  The aggregator's final output is sorted descending by publish
time: Python's stable `items.sort(key=..., reverse=True)` (line 385) is
`mergeSort` with `le a b := dtLe b.pubdate a.pubdate`, so every earlier
item's `pubdate` dominates every later one's, and the items carrying any
fixed timestamp appear in exactly the relative order in which they
entered the aggregator (`aggregatorInput`, the discovery order of lines
374–382). -/
theorem C3_sorted_descending_stable (fetchL : String → Option ListingPage)
    (fetchA : String → Option Page) (nowAt : String → DT) :
    (collect_all_articles fetchL fetchA nowAt).Pairwise
      (fun a b => dtLe b.pubdate a.pubdate = true) ∧
    ∀ ts : DT,
      (collect_all_articles fetchL fetchA nowAt).filter (fun r => decide (r.pubdate = ts)) =
        (aggregatorInput fetchL fetchA nowAt).filter (fun r => decide (r.pubdate = ts)) := by
  constructor
  · exact List.sorted_mergeSort recLe_trans recLe_total (aggregatorInput fetchL fetchA nowAt)
  · intro ts
    set inp := aggregatorInput fetchL fetchA nowAt with hinp
    have hBpw : (inp.filter (fun r => decide (r.pubdate = ts))).Pairwise
        (fun a b => recLe a b = true) := by
      apply List.pairwise_of_forall_mem_list
      intro a ha b hb
      have ha' : a.pubdate = ts := by simpa using List.of_mem_filter ha
      have hb' : b.pubdate = ts := by simpa using List.of_mem_filter hb
      show recLe a b = true
      unfold recLe
      rw [ha', hb']
      exact dtLe_refl ts
    have hsub : List.Sublist (inp.filter (fun r => decide (r.pubdate = ts)))
        (inp.mergeSort recLe) :=
      List.sublist_mergeSort recLe_trans recLe_total hBpw (List.filter_sublist inp)
    have hsub2 : List.Sublist (inp.filter (fun r => decide (r.pubdate = ts)))
        ((inp.mergeSort recLe).filter (fun r => decide (r.pubdate = ts))) := by
      have hfix : (inp.filter (fun r => decide (r.pubdate = ts))).filter
          (fun r => decide (r.pubdate = ts)) = inp.filter (fun r => decide (r.pubdate = ts)) := by
        apply List.filter_eq_self.mpr
        intro a ha
        simpa using List.of_mem_filter ha
      have := hsub.filter (fun r => decide (r.pubdate = ts))
      rwa [hfix] at this
    have hperm : List.Perm ((inp.mergeSort recLe).filter (fun r => decide (r.pubdate = ts)))
        (inp.filter (fun r => decide (r.pubdate = ts))) :=
      (List.mergeSort_perm inp recLe).filter (fun r => decide (r.pubdate = ts))
    have hlen : (inp.filter (fun r => decide (r.pubdate = ts))).length =
        ((inp.mergeSort recLe).filter (fun r => decide (r.pubdate = ts))).length :=
      hperm.length_eq.symm
    exact (hsub2.eq_of_length hlen).symm

theorem urls_of_filterMap_nodup (fetchA : String → Option Page) (nowAt : String → DT) :
    ∀ us : List String, us.Nodup →
      ((us.filterMap (fun u => (fetchA u).map (fun pg => extract_article u pg (nowAt u)))).map
        (fun r => r.url)).Nodup := by
  intro us
  induction us with
  | nil => intro _; simp
  | cons u tl ih =>
    intro hnd
    rw [List.filterMap_cons]
    cases hfu : fetchA u with
    | none =>
      simp only [hfu, Option.map_none']
      exact ih hnd.of_cons
    | some pg =>
      simp only [hfu, Option.map_some']
      rw [List.map_cons]
      refine List.nodup_cons.mpr ⟨?_, ih hnd.of_cons⟩
      intro hmem
      rw [List.mem_map] at hmem
      obtain ⟨r, hr, hurl⟩ := hmem
      rw [List.mem_filterMap] at hr
      obtain ⟨u', hu', hfu'⟩ := hr
      obtain ⟨pg', _, hr'⟩ := Option.map_eq_some'.mp hfu'
      have hru : r.url = u' := by rw [← hr']; exact rfl
      have hhead : (extract_article u pg (nowAt u)).url = u := rfl
      rw [hhead] at hurl
      have heq : u' = u := by rw [← hru, hurl]
      exact (List.nodup_cons.mp hnd).1 (heq ▸ hu')

/-- C7.  Within one run, no two emitted records share a URL: candidate
URLs are accumulated in a set (`dedup`), each surviving URL is extracted
exactly once with its own URL stored in the record, and the final sort
merely permutes the records. -/
theorem C7_urls_unique (fetchL : String → Option ListingPage)
    (fetchA : String → Option Page) (nowAt : String → DT) :
    ((collect_all_articles fetchL fetchA nowAt).map (fun r => r.url)).Nodup := by
  have h1 : (sortedUrls fetchL).Nodup := by
    have hp := List.mergeSort_perm ((discoveredUrls fetchL).dedup)
      (fun a b => !decide (b < a))
    exact (hp.nodup_iff).mpr (List.nodup_dedup _)
  have h2 := urls_of_filterMap_nodup fetchA nowAt (sortedUrls fetchL) h1
  have hp2 : List.Perm ((collect_all_articles fetchL fetchA nowAt).map (fun r => r.url))
      ((aggregatorInput fetchL fetchA nowAt).map (fun r => r.url)) :=
    (List.mergeSort_perm _ recLe).map _
  exact hp2.nodup_iff.mpr h2

end Scraper
